import Mathlib

/-!
# oscal-cli: the validation engine (package validate)

A shallow embedding of src/pkg/validate (validate.go, errors.go, schema.go) and
theorems about it.  Go strings are Lean strings, Go slices are lists, a Go map
is an association list whose order is the order in which one run iterates it,
a Go (value, error) pair is an Except value, the libraries the package calls
(encoding/json, yaml.v3, fmt, the XML loader) are fields of the record Lib, and
the schema engine is the Validate field of a compiled Schema.
-/

set_option autoImplicit false

namespace Oscal

/-! ## Go runtime values -/

/-- A Go error value: a base message, possibly wrapped by fmt.Errorf with the %w verb. -/
inductive GoError where
  | msg (text : String)
  | wrap (context : String) (cause : GoError)
deriving DecidableEq, Repr

/-- The text of err.Error(): fmt.Errorf("ctx: %w", cause) prints ctx, a colon, a blank
and the text of the cause. -/
def GoError.Error : GoError → String
  | .msg text => text
  | .wrap context cause => context ++ ": " ++ cause.Error

/-- The scalars a decoded document holds (nil, bool, int, float64 by its bit pattern,
string); they are also the possible keys of a Go map[any]any. -/
inductive Scalar where
  | null
  | bool (b : Bool)
  | int (i : Int)
  | float (bits : Nat)
  | str (s : String)
deriving DecidableEq, Repr

/-- A decoded document of Go type any: a scalar, a []any, a map[string]any or a
map[any]any.  The entries of a map are listed in the order the run ranges over them. -/
inductive Value where
  | scalar (s : Scalar)
  | list (items : List Value)
  | strMap (entries : List (String × Value))
  | anyMap (entries : List (Scalar × Value))
deriving Repr

/-- The Go map assignment result[k] = v on an association list: an existing key is
overwritten, a new key is added. -/
def mapSet {κ ν : Type} [DecidableEq κ] : List (κ × ν) → κ → ν → List (κ × ν)
  | [], k, v => [(k, v)]
  | (k0, v0) :: rest, k, v =>
    if k0 = k then (k, v) :: rest else (k0, v0) :: mapSet rest k v

/-- The Go map test _, ok := m[key]. -/
def hasKey {κ ν : Type} [DecidableEq κ] (m : List (κ × ν)) (key : κ) : Bool :=
  m.any (fun kv => decide (kv.1 = key))

/-- Go strings.Join(elems, sep). -/
def Join : List String → String → String
  | [], _ => ""
  | [a], _ => a
  | a :: b :: rest, sep => a ++ sep ++ Join (b :: rest) sep

/-- What fmt.Sprintf("%v", k) prints for a scalar key; the float64 case is left to
the parameter fmtFloat. -/
def Sprintf_v (fmtFloat : Nat → String) : Scalar → String
  | .null => "<nil>"
  | .bool true => "true"
  | .bool false => "false"
  | .int i => toString i
  | .float bits => fmtFloat bits
  | .str s => s

/-! ## Types of other packages -/

/-- Modelled from the spec: model.DocumentType of package pkg/oscal/model, which is not
among the source files; section 3 of the spec calls it a closed enumeration of 7
variants, and the constructors carry the names of the Go constants. -/
inductive DocumentType where
  | Catalog
  | Profile
  | SSP
  | ComponentDefinition
  | AssessmentPlan
  | AssessmentResults
  | POAM
deriving DecidableEq, Repr

/-- Modelled from the spec: the type Format of package pkg/oscal/io, which is not among the
source files; section 6 of the spec names three serialization formats, and any other
value of the Go type reaches the default branch of toJSON. -/
inductive Format where
  | JSON
  | YAML
  | XML
  | other (name : String)
deriving DecidableEq, Repr

/-- The node of the violation tree of the schema engine (jsonschema.ValidationError):
the fields flattenErrors reads, with ErrorText the string its Error() method returns. -/
inductive jsonschema.ValidationError where
  | mk (SchemaURL : String) (InstanceLocation : List String) (ErrorText : String)
      (Causes : List jsonschema.ValidationError)
deriving Repr

/-- The field Causes of a node. -/
def jsonschema.ValidationError.Causes :
    jsonschema.ValidationError → List jsonschema.ValidationError
  | .mk _ _ _ causes => causes

/-- The field InstanceLocation of a node. -/
def jsonschema.ValidationError.InstanceLocation : jsonschema.ValidationError → List String
  | .mk _ loc _ _ => loc

/-- A non-nil error returned by Schema.Validate: a violation tree, or an error of another
dynamic type. -/
inductive EngineError where
  | violation (tree : jsonschema.ValidationError)
  | failure (err : GoError)

/-- A compiled schema (jsonschema.Schema): its Validate method, none standing for nil. -/
structure jsonschema.Schema where
  Validate : Value → Option EngineError

/-- The library calls of the package: json.Unmarshal into a variable of type any,
json.Marshal, yaml.Unmarshal, fmt.Sprintf with %v on a map key, the loader and writer of
pkg/oscal/io over their document type δ, and the string behind a DocumentType. -/
structure Lib (δ : Type) where
  jsonUnmarshal : String → Except GoError Value
  jsonMarshal : Value → Except GoError String
  yamlUnmarshal : String → Except GoError Value
  sprintV : Scalar → String
  LoadFromBytes : String → Format → Except GoError δ
  Marshal : δ → Format → Except GoError String
  typeString : DocumentType → String
  formatString : Format → String

/-- The decoding json.Unmarshal(jsonData, &wrapper) with wrapper of type map[string]any:
a syntax error is returned as it is, an object fills the map, the literal null leaves the
map nil (no entries, no error), and any other root is a type error. -/
def unmarshalMap {δ : Type} (L : Lib δ) (jsonData : String) :
    Except GoError (List (String × Value)) :=
  match L.jsonUnmarshal jsonData with
  | .error e => .error e
  | .ok (.strMap entries) => .ok entries
  | .ok (.scalar .null) => .ok []
  | .ok _ =>
    .error (.msg "json: cannot unmarshal value into Go value of type map[string]interface \x7b\x7d")

/-! ## errors.go -/

/-- The struct ValidationError of errors.go. -/
structure ValidationError where
  Path : String
  Message : String
  SchemaPath : String
deriving DecidableEq, Repr

/-- The method Error of ValidationError (errors.go, lines 15 to 21). -/
def ValidationError.Error (e : ValidationError) : String :=
  if e.Path = "" ∨ e.Path = "/" then
    e.Message
  else
    e.Path ++ ": " ++ e.Message

/-- The struct ValidationResult of errors.go. -/
structure ValidationResult where
  Valid : Bool
  Errors : List ValidationError
  DocumentType : String
  FilePath : String
  SchemaVersion : String
deriving DecidableEq, Repr

/-- The method ErrorCount of ValidationResult. -/
def ValidationResult.ErrorCount (r : ValidationResult) : Nat :=
  r.Errors.length

/-- The loop of ValidationResult.String: one line per error, numbered from i + 1. -/
def numberedLines : Nat → List ValidationError → String
  | _, [] => ""
  | i, err :: rest =>
    "  " ++ toString (i + 1) ++ ". " ++ err.Error ++ "\n" ++ numberedLines (i + 1) rest

/-- The method String of ValidationResult (errors.go, lines 37 to 55). -/
def ValidationResult.String (r : ValidationResult) : String :=
  if r.Valid then
    "Valid " ++ r.DocumentType ++ " document: " ++ r.FilePath
  else
    let sb := "Document " ++ r.FilePath ++ " is invalid (" ++ toString r.Errors.length ++ " error"
    let sb := if r.Errors.length ≠ 1 then sb ++ "s" else sb
    let sb := sb ++ "):\n"
    sb ++ numberedLines 0 r.Errors

/-! ## schema.go -/

/-- The constant SchemaVersion of schema.go. -/
def SchemaVersion : String := "1.1.3"

/-! ## validate.go -/

/-- The struct Validator: the compiled schemas by document type, none for a missing key. -/
structure Validator where
  schemas : DocumentType → Option jsonschema.Schema

mutual
/-- The function convertYAMLToJSON (validate.go, lines 168 to 192). -/
def convertYAMLToJSON (sprintV : Scalar → String) : Value → Value
  | .strMap val => .strMap (convertStrEntries sprintV val [])
  | .anyMap val => .strMap (convertAnyEntries sprintV val [])
  | .list val => .list (convertItems sprintV val)
  | .scalar s => .scalar s
/-- The loop of the map[string]any case: result[k] = convertYAMLToJSON(v). -/
def convertStrEntries (sprintV : Scalar → String) :
    List (String × Value) → List (String × Value) → List (String × Value)
  | [], result => result
  | (k, v) :: rest, result =>
    convertStrEntries sprintV rest (mapSet result k (convertYAMLToJSON sprintV v))
/-- The loop of the map[any]any case: key := fmt.Sprintf("%v", k);
result[key] = convertYAMLToJSON(v). -/
def convertAnyEntries (sprintV : Scalar → String) :
    List (Scalar × Value) → List (String × Value) → List (String × Value)
  | [], result => result
  | (k, v) :: rest, result =>
    convertAnyEntries sprintV rest (mapSet result (sprintV k) (convertYAMLToJSON sprintV v))
/-- The loop of the []any case: result[i] = convertYAMLToJSON(v). -/
def convertItems (sprintV : Scalar → String) : List Value → List Value
  | [] => []
  | v :: rest => convertYAMLToJSON sprintV v :: convertItems sprintV rest
end

/-- The method toJSON (validate.go, lines 137 to 164). -/
def toJSON {δ : Type} (L : Lib δ) (data : String) (format : Format) : Except GoError String :=
  match format with
  | .JSON => .ok data
  | .YAML =>
    match L.yamlUnmarshal data with
    | .error err => .error (.wrap "failed to parse YAML" err)
    | .ok obj => L.jsonMarshal (convertYAMLToJSON L.sprintV obj)
  | .XML =>
    match L.LoadFromBytes data format with
    | .error err => .error (.wrap "failed to load XML" err)
    | .ok doc => L.Marshal doc .JSON
  | .other name => .error (.msg ("unsupported format: " ++ L.formatString (.other name)))

/-- The map literal typeMap of detectDocumentType (validate.go, lines 202 to 210). -/
def typeMap : List (String × DocumentType) :=
  [("catalog", .Catalog),
   ("profile", .Profile),
   ("system-security-plan", .SSP),
   ("component-definition", .ComponentDefinition),
   ("assessment-plan", .AssessmentPlan),
   ("assessment-results", .AssessmentResults),
   ("plan-of-action-and-milestones", .POAM)]

/-- The loop of detectDocumentType (lines 212 to 216) over the entries of typeMap in the
order the run visits them: the first visited key present in wrapper decides. -/
def rangeTypeMap (wrapper : List (String × Value)) :
    List (String × DocumentType) → Option DocumentType
  | [] => none
  | (key, docType) :: rest =>
    if hasKey wrapper key then some docType else rangeTypeMap wrapper rest

/-- The method detectDocumentType (validate.go, lines 195 to 219).  Go does not fix the
order in which a map is ranged over, so the order of this run is the argument order, a
permutation of typeMap. -/
def detectDocumentType {δ : Type} (L : Lib δ) (order : List (String × DocumentType))
    (jsonData : String) : Except GoError DocumentType :=
  match unmarshalMap L jsonData with
  | .error err => .error (.wrap "failed to parse JSON" err)
  | .ok wrapper =>
    match rangeTypeMap wrapper order with
    | some docType => .ok docType
    | none => .error (.msg "could not determine document type from content")

mutual
/-- The method flattenErrors (validate.go, lines 237 to 260). -/
def flattenErrors : jsonschema.ValidationError → List ValidationError → List ValidationError
  | .mk schemaURL instanceLocation errorText causes, errors =>
    if causes.length > 0 then
      flattenCauses causes errors
    else
      let path := "/" ++ Join instanceLocation "/"
      let path := if path = "/" then "" else path
      errors ++ [{ Path := path, Message := errorText, SchemaPath := schemaURL }]
/-- The loop of flattenErrors: errors = v.flattenErrors(cause, errors) for each cause. -/
def flattenCauses : List jsonschema.ValidationError → List ValidationError → List ValidationError
  | [], errors => errors
  | cause :: rest, errors => flattenCauses rest (flattenErrors cause errors)
end

/-- The method extractErrors (validate.go, lines 222 to 234). -/
def extractErrors (err : EngineError) : List ValidationError :=
  match err with
  | .violation validationErr => flattenErrors validationErr []
  | .failure e => [] ++ [{ Path := "", Message := e.Error, SchemaPath := "" }]

/-- The method ValidateBytes (validate.go, lines 94 to 134); order is the order in which
this run ranges over typeMap. -/
def ValidateBytes {δ : Type} (L : Lib δ) (v : Validator) (order : List (String × DocumentType))
    (data : String) (format : Format) (sourcePath : String) :
    Except GoError ValidationResult :=
  match toJSON L data format with
  | .error err => .error (.wrap "failed to convert to JSON" err)
  | .ok jsonData =>
    match detectDocumentType L order jsonData with
    | .error err => .error (.wrap "failed to detect document type" err)
    | .ok docType =>
      match v.schemas docType with
      | none =>
        .error (.msg ("no schema available for document type: " ++ L.typeString docType))
      | some schema =>
        match L.jsonUnmarshal jsonData with
        | .error err => .error (.wrap "failed to parse JSON" err)
        | .ok doc =>
          let result : ValidationResult :=
            { FilePath := sourcePath
              DocumentType := L.typeString docType
              SchemaVersion := SchemaVersion
              Valid := true
              Errors := [] }
          match schema.Validate doc with
          | none => .ok result
          | some err => .ok { result with Valid := false, Errors := extractErrors err }

/-! ## The words of the specification, for comparison with the code -/

/-- The path of the leaf branch of flattenErrors: a slash, then the segments joined with
slashes, and the empty string when that text is a lone slash. -/
def pointerPath (instanceLocation : List String) : String :=
  if "/" ++ Join instanceLocation "/" = "/" then "" else "/" ++ Join instanceLocation "/"

/-- The ValidationError a childless node is turned into. -/
def leafEntry : jsonschema.ValidationError → ValidationError
  | .mk schemaURL instanceLocation errorText _ =>
    { Path := pointerPath instanceLocation, Message := errorText, SchemaPath := schemaURL }

mutual
/-- The childless nodes of a violation tree, depth first and left to right through the
Causes lists (section 4.5 of the spec). -/
def leaves : jsonschema.ValidationError → List jsonschema.ValidationError
  | .mk schemaURL instanceLocation errorText [] => [.mk schemaURL instanceLocation errorText []]
  | .mk _ _ _ (cause :: rest) => leavesOfCauses (cause :: rest)
/-- The childless nodes below a list of causes, in the order of the list. -/
def leavesOfCauses : List jsonschema.ValidationError → List jsonschema.ValidationError
  | [] => []
  | cause :: rest => leaves cause ++ leavesOfCauses rest
end

mutual
/-- The number of childless nodes of a violation tree. -/
def numLeaves : jsonschema.ValidationError → Nat
  | .mk _ _ _ [] => 1
  | .mk _ _ _ (cause :: rest) => numLeavesOfCauses (cause :: rest)
/-- The number of childless nodes below a list of causes. -/
def numLeavesOfCauses : List jsonschema.ValidationError → Nat
  | [] => 0
  | cause :: rest => numLeaves cause + numLeavesOfCauses rest
end

mutual
/-- No map[any]any occurs anywhere in the tree: every map at every depth is
string-keyed. -/
def stringKeyed : Value → Bool
  | .scalar _ => true
  | .list items => stringKeyedItems items
  | .strMap entries => stringKeyedEntries entries
  | .anyMap _ => false
/-- Every element of a list is string-keyed at every depth. -/
def stringKeyedItems : List Value → Bool
  | [] => true
  | v :: rest => stringKeyed v && stringKeyedItems rest
/-- Every value of a string-keyed map is string-keyed at every depth. -/
def stringKeyedEntries : List (String × Value) → Bool
  | [] => true
  | (_, v) :: rest => stringKeyed v && stringKeyedEntries rest
end

/-- The 7 known root keys, in the order of the map literal. -/
def knownKeys : List String := typeMap.map Prod.fst

/-! ## A concrete instance of the libraries, for evaluating the code on examples -/

/-- A finite fragment of json.Unmarshal into any: the listed texts decode as
encoding/json decodes them, the empty text is the end-of-input syntax error, and every
other text is treated as a syntax error. -/
def demoUnmarshal (jsonData : String) : Except GoError Value :=
  if jsonData = "\x7b\"catalog\": \x7b\x7d\x7d" then
    .ok (.strMap [("catalog", .strMap [])])
  else if jsonData = "\x7b\"unknown-root\": \x7b\x7d\x7d" then
    .ok (.strMap [("unknown-root", .strMap [])])
  else if jsonData = "\x7b\"catalog\": \x7b\x7d, \"profile\": \x7b\x7d\x7d" then
    .ok (.strMap [("catalog", .strMap []), ("profile", .strMap [])])
  else if jsonData = "\x7b\"catalog\": \x7b\x7d, \"note\": \"x\"\x7d" then
    .ok (.strMap [("catalog", .strMap []), ("note", .scalar (.str "x"))])
  else if jsonData = "[]" then
    .ok (.list [])
  else if jsonData = "null" then
    .ok (.scalar .null)
  else if jsonData = "" then
    .error (.msg "unexpected end of JSON input")
  else
    .error (.msg "invalid character")

/-- The string behind each DocumentType in the demonstration instance. -/
def demoTypeString : DocumentType → String
  | .Catalog => "catalog"
  | .Profile => "profile"
  | .SSP => "system-security-plan"
  | .ComponentDefinition => "component-definition"
  | .AssessmentPlan => "assessment-plan"
  | .AssessmentResults => "assessment-results"
  | .POAM => "plan-of-action-and-milestones"

/-- A demonstration instance of the libraries: the JSON decoder fragment above; a YAML
decoder fragment in which the empty input decodes to nil without an error, as in yaml.v3,
and every other input is treated as rejected; a JSON encoder fragment in which nil is
encoded as the text null and every other value is treated as unsupported; and an XML
loader that rejects every input. -/
def demoLib : Lib Unit where
  jsonUnmarshal := demoUnmarshal
  jsonMarshal := fun obj =>
    match obj with
    | .scalar .null => .ok "null"
    | _ => .error (.msg "json: unsupported value")
  yamlUnmarshal := fun data =>
    if data = "" then .ok (.scalar .null)
    else .error (.msg "yaml: did not find expected node content")
  sprintV := Sprintf_v (fun _ => "NaN")
  LoadFromBytes := fun _ _ => .error (.msg "EOF")
  Marshal := fun _ _ => .ok "null"
  typeString := demoTypeString
  formatString := fun f =>
    match f with
    | .JSON => "json"
    | .YAML => "yaml"
    | .XML => "xml"
    | .other name => name

/-- A violation tree with an aggregate root over two childless nodes at /a and /b. -/
def demoTree : jsonschema.ValidationError :=
  .mk "oscal://schemas/catalog.json" [] "validation failed"
    [.mk "oscal://schemas/catalog.json#/required" ["a"] "missing property a" [],
     .mk "oscal://schemas/catalog.json#/required" ["b"] "missing property b" []]

/-- A demonstration schema: it reports demoTree for every map root and accepts every
other document. -/
def demoSchema : jsonschema.Schema where
  Validate := fun doc =>
    match doc with
    | .strMap _ => some (.violation demoTree)
    | _ => none

/-- A demonstration validator holding demoSchema for every document type. -/
def demoValidator : Validator where
  schemas := fun _ => some demoSchema

/-- The tree demoTree with its two causes reported in the other order. -/
def demoTreeSwapped : jsonschema.ValidationError :=
  .mk "oscal://schemas/catalog.json" [] "validation failed"
    [.mk "oscal://schemas/catalog.json#/required" ["b"] "missing property b" [],
     .mk "oscal://schemas/catalog.json#/required" ["a"] "missing property a" []]

/-- The engine of demoSchema on a run in which it reports the causes in the other order. -/
def demoValidateSwapped : DocumentType → Value → Option EngineError :=
  fun _ doc =>
    match doc with
    | .strMap _ => some (.violation demoTreeSwapped)
    | _ => none

/-- The libraries as they behave in another run: a decoded YAML map may be ranged over in
another order, so yaml.Unmarshal, whose entry order stands for that order, is replaced;
every other library call is the same function. -/
def secondRunLib {δ : Type} (L : Lib δ) (yamlUnmarshal₂ : String → Except GoError Value) :
    Lib δ :=
  { L with yamlUnmarshal := yamlUnmarshal₂ }

/-- The same Validator in another run: the same document types have a schema, and the
Validate method of the schema of docType behaves as validate₂ docType (the engine ranges
over Go maps, so the order of the Causes it reports is not fixed between runs). -/
def secondRunValidator (v : Validator)
    (validate₂ : DocumentType → Value → Option EngineError) : Validator :=
  { schemas := fun docType =>
      (v.schemas docType).map (fun _ => { Validate := validate₂ docType }) }

/-- The entries flattenErrors extracts from demoTree. -/
def demoErrors : List ValidationError :=
  [{ Path := "/a", Message := "missing property a",
     SchemaPath := "oscal://schemas/catalog.json#/required" },
   { Path := "/b", Message := "missing property b",
     SchemaPath := "oscal://schemas/catalog.json#/required" }]

/-- The result of the demonstration validator for a document detected as docType. -/
def demoResult (docType : String) (sourcePath : String) : ValidationResult :=
  { Valid := false, Errors := demoErrors, DocumentType := docType, FilePath := sourcePath,
    SchemaVersion := "1.1.3" }

/-- A decoded YAML tree with an arbitrary-keyed map at the root and another one inside a
list. -/
def demoYaml : Value :=
  .anyMap [(.int 1, .list [.anyMap [(.bool true, .scalar (.str "x"))], .scalar (.int 7)]),
           (.str "a", .strMap [("b", .anyMap [(.null, .scalar .null)])])]

/-- The tree convertYAMLToJSON returns for demoYaml. -/
def demoYamlConverted : Value :=
  .strMap [("1", .list [.strMap [("true", .scalar (.str "x"))], .scalar (.int 7)]),
           ("a", .strMap [("b", .strMap [("<nil>", .scalar .null)])])]

/-! ## Facts about strings and lists -/

theorem slash_append_eq_slash (s : String) : "/" ++ s = "/" ↔ s = "" := by
  constructor
  · intro h
    have h1 := congrArg String.length h
    rw [String.length_append] at h1
    have h2 : s.length = 0 := by
      have : ("/" : String).length = 1 := by decide
      omega
    have h3 : s.data = [] := List.length_eq_zero.mp h2
    exact String.ext h3
  · intro h
    subst h
    decide

theorem Join_eq_empty (segs : List String) :
    Join segs "/" = "" ↔ segs = [] ∨ segs = [""] := by
  match segs with
  | [] => simp [Join]
  | [a] => simp [Join]
  | a :: b :: rest =>
    simp only [Join]
    constructor
    · intro h
      have h1 := congrArg String.length h
      simp only [String.length_append] at h1
      have : ("/" : String).length = 1 := by decide
      have h0 : ("" : String).length = 0 := by decide
      omega
    · intro h
      rcases h with h | h <;> simp at h

theorem pointerPath_eq (segs : List String) :
    pointerPath segs = if segs = [] ∨ segs = [""] then "" else "/" ++ Join segs "/" := by
  unfold pointerPath
  by_cases h : segs = [] ∨ segs = [""]
  · have h1 : "/" ++ Join segs "/" = "/" :=
      (slash_append_eq_slash _).mpr ((Join_eq_empty segs).mpr h)
    rw [if_pos h1, if_pos h]
  · have h1 : ¬ ("/" ++ Join segs "/" = "/") := fun hh =>
      h ((Join_eq_empty segs).mp ((slash_append_eq_slash _).mp hh))
    rw [if_neg h1, if_neg h]

/-! ## flattenErrors -/

theorem flattenErrors_leaf (schemaURL : String) (loc : List String) (errorText : String)
    (acc : List ValidationError) :
    flattenErrors (.mk schemaURL loc errorText []) acc
      = acc ++ [{ Path := pointerPath loc, Message := errorText, SchemaPath := schemaURL }] := by
  simp [flattenErrors, pointerPath]

mutual
theorem flattenErrors_eq_leaves :
    ∀ (t : jsonschema.ValidationError) (acc : List ValidationError),
      flattenErrors t acc = acc ++ (leaves t).map leafEntry
  | .mk schemaURL loc errorText [], acc => by
    rw [flattenErrors_leaf]
    simp [leaves, leafEntry]
  | .mk schemaURL loc errorText (cause :: rest), acc => by
    have h := flattenCauses_eq_leaves (cause :: rest) acc
    simp only [flattenErrors, leaves, List.length_cons, gt_iff_lt, Nat.zero_lt_succ, if_true]
    exact h
theorem flattenCauses_eq_leaves :
    ∀ (cs : List jsonschema.ValidationError) (acc : List ValidationError),
      flattenCauses cs acc = acc ++ (leavesOfCauses cs).map leafEntry
  | [], acc => by simp [flattenCauses, leavesOfCauses]
  | cause :: rest, acc => by
    rw [flattenCauses, flattenErrors_eq_leaves cause acc,
      flattenCauses_eq_leaves rest (acc ++ (leaves cause).map leafEntry)]
    simp [leavesOfCauses]
end

mutual
theorem length_leaves :
    ∀ (t : jsonschema.ValidationError), (leaves t).length = numLeaves t
  | .mk _ _ _ [] => by simp [leaves, numLeaves]
  | .mk _ _ _ (cause :: rest) => by
    have h := length_leavesOfCauses (cause :: rest)
    simp only [leaves, numLeaves]
    exact h
theorem length_leavesOfCauses :
    ∀ (cs : List jsonschema.ValidationError), (leavesOfCauses cs).length = numLeavesOfCauses cs
  | [] => by simp [leavesOfCauses, numLeavesOfCauses]
  | cause :: rest => by
    simp [leavesOfCauses, numLeavesOfCauses, length_leaves cause, length_leavesOfCauses rest]
end

mutual
theorem leaves_childless :
    ∀ (t : jsonschema.ValidationError), ∀ n ∈ leaves t, n.Causes = []
  | .mk _ _ _ [] => by
    intro n hn
    simp only [leaves, List.mem_singleton] at hn
    subst hn
    rfl
  | .mk _ _ _ (cause :: rest) => by
    intro n hn
    simp only [leaves] at hn
    exact leavesOfCauses_childless (cause :: rest) n hn
theorem leavesOfCauses_childless :
    ∀ (cs : List jsonschema.ValidationError), ∀ n ∈ leavesOfCauses cs, n.Causes = []
  | [] => by
    intro n hn
    simp [leavesOfCauses] at hn
  | cause :: rest => by
    intro n hn
    simp only [leavesOfCauses, List.mem_append] at hn
    rcases hn with hn | hn
    · exact leaves_childless cause n hn
    · exact leavesOfCauses_childless rest n hn
end

mutual
theorem numLeaves_pos : ∀ (t : jsonschema.ValidationError), 0 < numLeaves t
  | .mk _ _ _ [] => by simp [numLeaves]
  | .mk _ _ _ (cause :: rest) => by
    have h := numLeaves_pos cause
    simp only [numLeaves, numLeavesOfCauses]
    omega
end

/-- C1: for every violation tree t and accumulator acc, flattenErrors t acc is acc followed
by one ValidationError per childless node of t, depth first and left to right through the
Causes lists; a node with children adds no entry of its own, and the number of entries
added is the number of leaves of t. -/
theorem C1_flattenErrors_emits_exactly_the_leaves
    (t : jsonschema.ValidationError) (acc : List ValidationError) :
    flattenErrors t acc = acc ++ (leaves t).map leafEntry
    ∧ (∀ n ∈ leaves t, n.Causes = [])
    ∧ (flattenErrors t acc).length = acc.length + numLeaves t := by
  refine ⟨flattenErrors_eq_leaves t acc, leaves_childless t, ?_⟩
  rw [flattenErrors_eq_leaves t acc, List.length_append, List.length_map, length_leaves]

/-- C1 at the tree of the leaf-only scenario of the spec: two required-field violations at
/a and /b under one aggregate node give exactly two entries, neither of them the
aggregate message. -/
theorem C1_flattenErrors_emits_exactly_the_leaves_witness :
    flattenErrors demoTree []
        = [{ Path := "/a", Message := "missing property a",
             SchemaPath := "oscal://schemas/catalog.json#/required" },
           { Path := "/b", Message := "missing property b",
             SchemaPath := "oscal://schemas/catalog.json#/required" }]
    ∧ (flattenErrors demoTree []).length = 0 + 2 :=
  ⟨(C1_flattenErrors_emits_exactly_the_leaves demoTree []).1.trans (by decide),
   (C1_flattenErrors_emits_exactly_the_leaves demoTree []).2.2.trans (by decide)⟩

/-- The Path flattenErrors gives a childless node, for every list of segments: the
empty string for no segment and for the single empty segment, and otherwise a slash
followed by the segments joined with slashes. -/
theorem flattenErrors_leaf_path
    (schemaURL : String) (loc : List String) (errorText : String)
    (acc : List ValidationError) :
    flattenErrors (.mk schemaURL loc errorText []) acc
      = acc ++ [{ Path := if loc = [] ∨ loc = [""] then "" else "/" ++ Join loc "/",
                  Message := errorText, SchemaPath := schemaURL }] := by
  rw [flattenErrors_leaf, pointerPath_eq]

/-- C3 at the failing input: for a childless node whose only segment is the empty string
(n = 1) the code emits the Path "" and not "/" followed by the joined segments, which is
"/"; the entry is the one emitted for a node with no segment at all; so the claim, which
gives the slash-joined Path to every node with n >= 1, does not hold of the code. -/
theorem C3_flattenErrors_single_empty_segment :
    flattenErrors (.mk "s" [""] "m" []) []
        = [{ Path := "", Message := "m", SchemaPath := "s" }]
    ∧ "/" ++ Join [""] "/" = "/"
    ∧ flattenErrors (.mk "s" [""] "m" []) [] = flattenErrors (.mk "s" [] "m" []) []
    ∧ ¬ (∀ (schemaURL : String) (loc : List String) (errorText : String)
          (acc : List ValidationError), loc ≠ [] →
          flattenErrors (.mk schemaURL loc errorText []) acc
            = acc ++ [{ Path := "/" ++ Join loc "/", Message := errorText,
                        SchemaPath := schemaURL }]) := by
  refine ⟨by decide, by decide, by decide, ?_⟩
  intro h
  have h1 := h "s" [""] "m" [] (by decide)
  revert h1
  decide

/-! ## ValidationError.Error -/

theorem Error_of_root_path (e : ValidationError) (h : e.Path = "" ∨ e.Path = "/") :
    e.Error = e.Message := by
  unfold ValidationError.Error
  rw [if_pos h]

theorem Error_of_other_path (e : ValidationError) (h : ¬ (e.Path = "" ∨ e.Path = "/")) :
    e.Error = e.Path ++ ": " ++ e.Message := by
  unfold ValidationError.Error
  rw [if_neg h]

theorem append_colon_ne (p m : String) : p ++ ": " ++ m ≠ m := by
  intro h
  have h1 := congrArg String.length h
  simp only [String.length_append] at h1
  have h2 : (": " : String).length = 2 := by decide
  omega

/-- C7 as stated fails: for the Path "/" the rendering is the Message alone, although the
Path is not empty. -/
theorem C7_counterexample_slash_path :
    ¬ (∀ e : ValidationError,
        (e.Path ≠ "" → e.Error = e.Path ++ ": " ++ e.Message)
        ∧ (e.Error = e.Message ↔ e.Path = "")) := by
  intro h
  have h1 := (h { Path := "/", Message := "m", SchemaPath := "" }).1 (by decide)
  revert h1
  decide

/-- C7, amended: e.Error() is Path, a colon and a blank, then Message whenever Path is
neither empty nor the text "/", and it is Message alone exactly when Path is empty or
is "/"; each numbered line of ValidationResult.String holds that rendering. -/
theorem C7_Error_rendering (e : ValidationError) :
    (e.Path ≠ "" → e.Path ≠ "/" → e.Error = e.Path ++ ": " ++ e.Message)
    ∧ (e.Error = e.Message ↔ e.Path = "" ∨ e.Path = "/")
    ∧ (∀ (i : Nat) (rest : List ValidationError),
        numberedLines i (e :: rest)
          = "  " ++ toString (i + 1) ++ ". " ++ e.Error ++ "\n" ++ numberedLines (i + 1) rest) := by
  refine ⟨?_, ?_, fun i rest => rfl⟩
  · intro h1 h2
    exact Error_of_other_path e (fun h => h.elim h1 h2)
  · constructor
    · intro h
      by_contra hne
      rw [Error_of_other_path e hne] at h
      exact append_colon_ne _ _ h
    · exact Error_of_root_path e

/-- C7, amended, at the paths "/a", "" and "/". -/
theorem C7_Error_rendering_witness :
    (ValidationError.mk "/a" "m" "").Error = "/a: m"
    ∧ (ValidationError.mk "" "m" "").Error = "m"
    ∧ (ValidationError.mk "/" "m" "").Error = "m" :=
  ⟨((C7_Error_rendering (ValidationError.mk "/a" "m" "")).1 (by decide) (by decide)).trans
      (by decide),
   (C7_Error_rendering (ValidationError.mk "" "m" "")).2.1.mpr (Or.inl rfl),
   (C7_Error_rendering (ValidationError.mk "/" "m" "")).2.1.mpr (Or.inr rfl)⟩

/-! ## detectDocumentType -/

theorem hasKey_nil (key : String) : hasKey ([] : List (String × Value)) key = false := rfl

theorem rangeTypeMap_none_iff (wrapper : List (String × Value))
    (order : List (String × DocumentType)) :
    rangeTypeMap wrapper order = none ↔ ∀ p ∈ order, hasKey wrapper p.1 = false := by
  induction order with
  | nil => simp [rangeTypeMap]
  | cons p rest ih =>
    obtain ⟨key, docType⟩ := p
    simp only [rangeTypeMap, List.mem_cons, forall_eq_or_imp]
    by_cases hk : hasKey wrapper key = true
    · simp [hk]
    · simp only [hk, Bool.false_eq_true, if_false, ih]
      simp [Bool.eq_false_iff.mpr hk]

theorem rangeTypeMap_some (wrapper : List (String × Value))
    (order : List (String × DocumentType)) (t : DocumentType)
    (h : rangeTypeMap wrapper order = some t) :
    ∃ key, (key, t) ∈ order ∧ hasKey wrapper key = true := by
  induction order with
  | nil => simp [rangeTypeMap] at h
  | cons p rest ih =>
    obtain ⟨key, docType⟩ := p
    simp only [rangeTypeMap] at h
    by_cases hk : hasKey wrapper key = true
    · rw [if_pos hk] at h
      cases h
      exact ⟨key, List.mem_cons_self _ _, hk⟩
    · rw [if_neg hk] at h
      obtain ⟨k, hmem, hk2⟩ := ih h
      exact ⟨k, List.mem_cons_of_mem _ hmem, hk2⟩

theorem typeMap_functional (key : String) (t₁ t₂ : DocumentType)
    (h₁ : (key, t₁) ∈ typeMap) (h₂ : (key, t₂) ∈ typeMap) : t₁ = t₂ := by
  simp only [typeMap, List.mem_cons, Prod.mk.injEq, List.mem_nil_iff, or_false] at h₁ h₂
  rcases h₁ with ⟨a, b⟩ | ⟨a, b⟩ | ⟨a, b⟩ | ⟨a, b⟩ | ⟨a, b⟩ | ⟨a, b⟩ | ⟨a, b⟩ <;>
  rcases h₂ with ⟨c, d⟩ | ⟨c, d⟩ | ⟨c, d⟩ | ⟨c, d⟩ | ⟨c, d⟩ | ⟨c, d⟩ | ⟨c, d⟩ <;>
  subst a b d <;> first | rfl | (exact absurd c (by decide))

theorem mem_knownKeys_of_mem_typeMap (key : String) (t : DocumentType)
    (h : (key, t) ∈ typeMap) : key ∈ knownKeys :=
  List.mem_map.mpr ⟨(key, t), h, rfl⟩

/-- When at most the known key named key is present in wrapper, every visiting order
finds the type the table gives to key. -/
theorem rangeTypeMap_unique (wrapper : List (String × Value))
    (order : List (String × DocumentType)) (hperm : order.Perm typeMap)
    (key : String) (t : DocumentType) (hmem : (key, t) ∈ typeMap)
    (hkey : hasKey wrapper key = true)
    (hothers : ∀ k ∈ knownKeys, hasKey wrapper k = true → k = key) :
    rangeTypeMap wrapper order = some t := by
  cases hres : rangeTypeMap wrapper order with
  | none =>
    have hall := (rangeTypeMap_none_iff wrapper order).mp hres
    have h1 := hall (key, t) (hperm.mem_iff.mpr hmem)
    simp only at h1
    rw [hkey] at h1
    exact absurd h1 (by decide)
  | some t0 =>
    obtain ⟨k, hk, hk2⟩ := rangeTypeMap_some wrapper order t0 hres
    have hk3 : (k, t0) ∈ typeMap := hperm.mem_iff.mp hk
    have hk4 : k = key := hothers k (mem_knownKeys_of_mem_typeMap k t0 hk3) hk2
    subst hk4
    rw [typeMap_functional k t0 t hk3 hmem]

theorem detectDocumentType_of_map {δ : Type} (L : Lib δ)
    (order : List (String × DocumentType)) (jsonData : String)
    (entries : List (String × Value)) (hroot : L.jsonUnmarshal jsonData = .ok (.strMap entries)) :
    detectDocumentType L order jsonData
      = match rangeTypeMap entries order with
        | some docType => .ok docType
        | none => .error (.msg "could not determine document type from content") := by
  simp only [detectDocumentType, unmarshalMap, hroot]

theorem detectDocumentType_ok_parses {δ : Type} (L : Lib δ)
    (order : List (String × DocumentType)) (jsonData : String) (t : DocumentType)
    (h : detectDocumentType L order jsonData = .ok t) :
    ∃ root, L.jsonUnmarshal jsonData = .ok root := by
  cases hp : L.jsonUnmarshal jsonData with
  | error e =>
    simp [detectDocumentType, unmarshalMap, hp] at h
  | ok root => exact ⟨root, rfl⟩

theorem detectDocumentType_not_map {δ : Type} (L : Lib δ)
    (order : List (String × DocumentType)) (jsonData : String) (root : Value)
    (hroot : L.jsonUnmarshal jsonData = .ok root) (hnot : ∀ entries, root ≠ .strMap entries) :
    ∃ e, detectDocumentType L order jsonData = .error e := by
  cases root with
  | strMap entries => exact absurd rfl (hnot entries)
  | scalar s =>
    cases s with
    | null =>
      have hnone : rangeTypeMap [] order = none :=
        (rangeTypeMap_none_iff [] order).mpr (fun p _ => hasKey_nil p.1)
      refine ⟨.msg "could not determine document type from content", ?_⟩
      simp only [detectDocumentType, unmarshalMap, hroot, hnone]
    | bool b =>
      simp only [detectDocumentType, unmarshalMap, hroot]
      exact ⟨_, rfl⟩
    | int i =>
      simp only [detectDocumentType, unmarshalMap, hroot]
      exact ⟨_, rfl⟩
    | float bits =>
      simp only [detectDocumentType, unmarshalMap, hroot]
      exact ⟨_, rfl⟩
    | str s =>
      simp only [detectDocumentType, unmarshalMap, hroot]
      exact ⟨_, rfl⟩
  | list items =>
    simp only [detectDocumentType, unmarshalMap, hroot]
    exact ⟨_, rfl⟩
  | anyMap entries =>
    simp only [detectDocumentType, unmarshalMap, hroot]
    exact ⟨_, rfl⟩

/-- C4: with the parsed root at hand, detectDocumentType fails if and only if the root is
not a map (a list, a scalar, null) or is a map holding none of the 7 known root keys; a
list root and the document with the single key unknown-root are both rejected. -/
theorem C4_detectDocumentType_fails_iff {δ : Type} (L : Lib δ)
    (order : List (String × DocumentType)) (hperm : order.Perm typeMap)
    (jsonData : String) (root : Value) (hroot : L.jsonUnmarshal jsonData = .ok root) :
    ((∃ e, detectDocumentType L order jsonData = .error e)
      ↔ ((∀ entries, root ≠ .strMap entries)
          ∨ ∃ entries, root = .strMap entries ∧ ∀ key ∈ knownKeys, hasKey entries key = false))
    ∧ knownKeys = ["catalog", "profile", "system-security-plan", "component-definition",
        "assessment-plan", "assessment-results", "plan-of-action-and-milestones"]
    ∧ (∀ items, root = .list items → ∃ e, detectDocumentType L order jsonData = .error e)
    ∧ (root = .strMap [("unknown-root", .strMap [])] →
        ∃ e, detectDocumentType L order jsonData = .error e) := by
  have hmain : (∃ e, detectDocumentType L order jsonData = .error e)
      ↔ ((∀ entries, root ≠ .strMap entries)
          ∨ ∃ entries, root = .strMap entries ∧ ∀ key ∈ knownKeys, hasKey entries key = false) := by
    constructor
    · rintro ⟨e, he⟩
      by_cases hm : ∃ entries, root = .strMap entries
      · obtain ⟨entries, rfl⟩ := hm
        right
        refine ⟨entries, rfl, ?_⟩
        rw [detectDocumentType_of_map L order jsonData entries hroot] at he
        cases hres : rangeTypeMap entries order with
        | some t => rw [hres] at he; cases he
        | none =>
          intro key hkey
          obtain ⟨p, hp, rfl⟩ := List.mem_map.mp hkey
          exact (rangeTypeMap_none_iff entries order).mp hres p (hperm.mem_iff.mpr hp)
      · left
        intro entries hentries
        exact hm ⟨entries, hentries⟩
    · rintro (hnot | ⟨entries, rfl, hnone⟩)
      · exact detectDocumentType_not_map L order jsonData root hroot hnot
      · have hres : rangeTypeMap entries order = none :=
          (rangeTypeMap_none_iff entries order).mpr (fun p hp =>
            hnone p.1 (List.mem_map.mpr ⟨p, hperm.mem_iff.mp hp, rfl⟩))
        refine ⟨.msg "could not determine document type from content", ?_⟩
        rw [detectDocumentType_of_map L order jsonData entries hroot, hres]
  refine ⟨hmain, rfl, ?_, ?_⟩
  · intro items hitems
    exact hmain.mpr (Or.inl (fun entries he => by rw [hitems] at he; cases he))
  · intro hunk
    refine hmain.mpr (Or.inr ⟨_, hunk, ?_⟩)
    decide

/-- C4 at three inputs of the decoder fragment: the list root and the unknown-root
document are rejected, the catalog document is not. -/
theorem C4_detectDocumentType_fails_iff_witness :
    (∃ e, detectDocumentType demoLib typeMap "[]" = .error e)
    ∧ (∃ e, detectDocumentType demoLib typeMap "\x7b\"unknown-root\": \x7b\x7d\x7d" = .error e)
    ∧ ¬ (∃ e, detectDocumentType demoLib typeMap "\x7b\"catalog\": \x7b\x7d\x7d" = .error e) :=
  ⟨(C4_detectDocumentType_fails_iff demoLib typeMap (List.Perm.refl _) "[]" (.list [])
      rfl).2.2.1 [] rfl,
   (C4_detectDocumentType_fails_iff demoLib typeMap (List.Perm.refl _)
      "\x7b\"unknown-root\": \x7b\x7d\x7d" (.strMap [("unknown-root", .strMap [])])
      rfl).2.2.2 rfl,
   fun h => by
    have h1 := (C4_detectDocumentType_fails_iff demoLib typeMap (List.Perm.refl _)
      "\x7b\"catalog\": \x7b\x7d\x7d" (.strMap [("catalog", .strMap [])]) rfl).1.mp h
    rcases h1 with h1 | ⟨entries, he, hnone⟩
    · exact h1 _ rfl
    · cases he
      exact absurd (hnone "catalog" (by decide)) (by decide)⟩

/-- C5: when detectDocumentType succeeds on a root map, the type returned is the one the
table gives to some known key present in the root; the table has 7 entries with distinct
keys and distinct types; and when exactly one known key is present the result is the type
of that key, whatever unknown keys are present and whatever the order of the loop. -/
theorem C5_detectDocumentType_returns_table_type {δ : Type} (L : Lib δ)
    (order : List (String × DocumentType)) (hperm : order.Perm typeMap)
    (jsonData : String) (entries : List (String × Value))
    (hroot : L.jsonUnmarshal jsonData = .ok (.strMap entries)) :
    (∀ t, detectDocumentType L order jsonData = .ok t →
        ∃ key, (key, t) ∈ typeMap ∧ hasKey entries key = true)
    ∧ (typeMap.length = 7 ∧ (typeMap.map Prod.fst).Nodup ∧ (typeMap.map Prod.snd).Nodup)
    ∧ (∀ key t, (key, t) ∈ typeMap → hasKey entries key = true →
        (∀ k ∈ knownKeys, k ≠ key → hasKey entries k = false) →
        detectDocumentType L order jsonData = .ok t) := by
  refine ⟨?_, ⟨rfl, by decide, by decide⟩, ?_⟩
  · intro t ht
    rw [detectDocumentType_of_map L order jsonData entries hroot] at ht
    cases hres : rangeTypeMap entries order with
    | none => rw [hres] at ht; cases ht
    | some t0 =>
      obtain ⟨key, hk, hk2⟩ := rangeTypeMap_some entries order t0 hres
      rw [hres] at ht
      cases ht
      exact ⟨key, hperm.mem_iff.mp hk, hk2⟩
  · intro key t hmem hkey hothers
    have hres := rangeTypeMap_unique entries order hperm key t hmem hkey (by
      intro k hk hk2
      by_contra hne
      rw [hothers k hk hne] at hk2
      exact absurd hk2 (by decide))
    rw [detectDocumentType_of_map L order jsonData entries hroot, hres]

/-- C5 at a catalog document that also holds an unknown key, with the loop running over
the table backwards. -/
theorem C5_detectDocumentType_returns_table_type_witness :
    detectDocumentType demoLib typeMap.reverse
      "\x7b\"catalog\": \x7b\x7d, \"note\": \"x\"\x7d" = .ok DocumentType.Catalog :=
  (C5_detectDocumentType_returns_table_type demoLib typeMap.reverse (List.reverse_perm _)
    "\x7b\"catalog\": \x7b\x7d, \"note\": \"x\"\x7d"
    [("catalog", .strMap []), ("note", .scalar (.str "x"))] rfl).2.2
    "catalog" DocumentType.Catalog (by decide) (by decide) (by decide)

/-! ## ValidateBytes -/

theorem extractErrors_ne_nil (err : EngineError) : extractErrors err ≠ [] := by
  cases err with
  | violation tree =>
    intro h
    have h1 := congrArg List.length h
    simp only [extractErrors] at h1
    rw [flattenErrors_eq_leaves, List.length_append, List.length_map, length_leaves] at h1
    have h2 := numLeaves_pos tree
    simp at h1
    omega
  | failure e => simp [extractErrors]

theorem ValidateBytes_toJSON_error {δ : Type} (L : Lib δ) (v : Validator)
    (order : List (String × DocumentType)) (data : String) (format : Format)
    (sourcePath : String) (e : GoError) (h1 : toJSON L data format = .error e) :
    ValidateBytes L v order data format sourcePath
      = .error (.wrap "failed to convert to JSON" e) := by
  simp only [ValidateBytes, h1]

theorem ValidateBytes_detect_error {δ : Type} (L : Lib δ) (v : Validator)
    (order : List (String × DocumentType)) (data : String) (format : Format)
    (sourcePath : String) (jsonData : String) (e : GoError)
    (h1 : toJSON L data format = .ok jsonData)
    (h2 : detectDocumentType L order jsonData = .error e) :
    ValidateBytes L v order data format sourcePath
      = .error (.wrap "failed to detect document type" e) := by
  simp only [ValidateBytes, h1, h2]

theorem ValidateBytes_lookup_error {δ : Type} (L : Lib δ) (v : Validator)
    (order : List (String × DocumentType)) (data : String) (format : Format)
    (sourcePath : String) (jsonData : String) (docType : DocumentType)
    (h1 : toJSON L data format = .ok jsonData)
    (h2 : detectDocumentType L order jsonData = .ok docType)
    (h3 : v.schemas docType = none) :
    ValidateBytes L v order data format sourcePath
      = .error (.msg ("no schema available for document type: " ++ L.typeString docType)) := by
  simp only [ValidateBytes, h1, h2, h3]

theorem ValidateBytes_valid {δ : Type} (L : Lib δ) (v : Validator)
    (order : List (String × DocumentType)) (data : String) (format : Format)
    (sourcePath : String) (jsonData : String) (docType : DocumentType)
    (schema : jsonschema.Schema) (doc : Value)
    (h1 : toJSON L data format = .ok jsonData)
    (h2 : detectDocumentType L order jsonData = .ok docType)
    (h3 : v.schemas docType = some schema)
    (h4 : L.jsonUnmarshal jsonData = .ok doc)
    (h5 : schema.Validate doc = none) :
    ValidateBytes L v order data format sourcePath
      = .ok { Valid := true, Errors := [], DocumentType := L.typeString docType,
              FilePath := sourcePath, SchemaVersion := SchemaVersion } := by
  simp only [ValidateBytes, h1, h2, h3, h4, h5]

theorem ValidateBytes_invalid {δ : Type} (L : Lib δ) (v : Validator)
    (order : List (String × DocumentType)) (data : String) (format : Format)
    (sourcePath : String) (jsonData : String) (docType : DocumentType)
    (schema : jsonschema.Schema) (doc : Value) (err : EngineError)
    (h1 : toJSON L data format = .ok jsonData)
    (h2 : detectDocumentType L order jsonData = .ok docType)
    (h3 : v.schemas docType = some schema)
    (h4 : L.jsonUnmarshal jsonData = .ok doc)
    (h5 : schema.Validate doc = some err) :
    ValidateBytes L v order data format sourcePath
      = .ok { Valid := false, Errors := extractErrors err,
              DocumentType := L.typeString docType,
              FilePath := sourcePath, SchemaVersion := SchemaVersion } := by
  simp only [ValidateBytes, h1, h2, h3, h4, h5]

/-- Every Result of ValidateBytes is one of the two records built after the four stages
have succeeded. -/
theorem ValidateBytes_ok_inv {δ : Type} (L : Lib δ) (v : Validator)
    (order : List (String × DocumentType)) (data : String) (format : Format)
    (sourcePath : String) (r : ValidationResult)
    (h : ValidateBytes L v order data format sourcePath = .ok r) :
    ∃ jsonData docType schema doc,
      toJSON L data format = .ok jsonData
      ∧ detectDocumentType L order jsonData = .ok docType
      ∧ v.schemas docType = some schema
      ∧ L.jsonUnmarshal jsonData = .ok doc
      ∧ ((schema.Validate doc = none
            ∧ r = { Valid := true, Errors := [], DocumentType := L.typeString docType,
                    FilePath := sourcePath, SchemaVersion := SchemaVersion })
          ∨ ∃ err, schema.Validate doc = some err
            ∧ r = { Valid := false, Errors := extractErrors err,
                    DocumentType := L.typeString docType,
                    FilePath := sourcePath, SchemaVersion := SchemaVersion }) := by
  cases h1 : toJSON L data format with
  | error e =>
    rw [ValidateBytes_toJSON_error L v order data format sourcePath e h1] at h
    cases h
  | ok jsonData =>
    cases h2 : detectDocumentType L order jsonData with
    | error e =>
      rw [ValidateBytes_detect_error L v order data format sourcePath jsonData e h1 h2] at h
      cases h
    | ok docType =>
      cases h3 : v.schemas docType with
      | none =>
        rw [ValidateBytes_lookup_error L v order data format sourcePath jsonData docType
          h1 h2 h3] at h
        cases h
      | some schema =>
        obtain ⟨doc, h4⟩ := detectDocumentType_ok_parses L order jsonData docType h2
        refine ⟨jsonData, docType, schema, doc, rfl, h2, h3, h4, ?_⟩
        cases h5 : schema.Validate doc with
        | none =>
          rw [ValidateBytes_valid L v order data format sourcePath jsonData docType schema doc
            h1 h2 h3 h4 h5] at h
          cases h
          exact Or.inl ⟨rfl, rfl⟩
        | some err =>
          rw [ValidateBytes_invalid L v order data format sourcePath jsonData docType schema
            doc err h1 h2 h3 h4 h5] at h
          cases h
          exact Or.inr ⟨err, rfl, rfl⟩

/-- C2: in every ValidationResult returned by ValidateBytes the Errors list is empty if
and only if Valid is true, whatever Validate returned; and extractErrors is non-empty for
every non-nil error, a violation tree of any shape or an error of another type. -/
theorem C2_errors_empty_iff_valid {δ : Type} (L : Lib δ) (v : Validator)
    (order : List (String × DocumentType)) (data : String) (format : Format)
    (sourcePath : String) (r : ValidationResult)
    (h : ValidateBytes L v order data format sourcePath = .ok r) :
    (r.Errors = [] ↔ r.Valid = true) ∧ (∀ err : EngineError, extractErrors err ≠ []) := by
  refine ⟨?_, extractErrors_ne_nil⟩
  obtain ⟨jsonData, docType, schema, doc, _, _, _, _, hcase⟩ :=
    ValidateBytes_ok_inv L v order data format sourcePath r h
  rcases hcase with ⟨_, hr⟩ | ⟨err, _, hr⟩
  · subst hr
    simp
  · subst hr
    simp [extractErrors_ne_nil err]

/-- C2 at the catalog document of scenario 1 with a schema that reports two violations:
the Result is invalid and its error list is not empty. -/
theorem C2_errors_empty_iff_valid_witness :
    ValidateBytes demoLib demoValidator typeMap "\x7b\"catalog\": \x7b\x7d\x7d" Format.JSON
        "catalog.json" = .ok (demoResult "catalog" "catalog.json")
    ∧ ((demoResult "catalog" "catalog.json").Errors = []
        ↔ (demoResult "catalog" "catalog.json").Valid = true) :=
  ⟨rfl, (C2_errors_empty_iff_valid demoLib demoValidator typeMap
    "\x7b\"catalog\": \x7b\x7d\x7d" Format.JSON "catalog.json"
    (demoResult "catalog" "catalog.json") rfl).1⟩

/-- C8: when normalisation, detection and schema lookup succeed, ValidateBytes returns a
Result and no error, whether or not Validate reports violations; the Result keeps the
source label, the detected type and the schema version "1.1.3", and violations give
Valid = false with a populated error list.  When normalisation, detection or lookup
fails, an error is returned and no Result. -/
theorem C8_ValidateBytes_result_or_hard_error {δ : Type} (L : Lib δ) (v : Validator)
    (order : List (String × DocumentType)) (data : String) (format : Format)
    (sourcePath : String) :
    (∀ jsonData docType schema,
        toJSON L data format = .ok jsonData →
        detectDocumentType L order jsonData = .ok docType →
        v.schemas docType = some schema →
        ∃ r doc, ValidateBytes L v order data format sourcePath = .ok r
          ∧ L.jsonUnmarshal jsonData = .ok doc
          ∧ r.FilePath = sourcePath
          ∧ r.DocumentType = L.typeString docType
          ∧ r.SchemaVersion = "1.1.3"
          ∧ (schema.Validate doc = none → r.Valid = true ∧ r.Errors = [])
          ∧ (∀ err, schema.Validate doc = some err →
              r.Valid = false ∧ r.Errors = extractErrors err ∧ r.Errors ≠ []))
    ∧ (∀ e, toJSON L data format = .error e →
        ValidateBytes L v order data format sourcePath
          = .error (.wrap "failed to convert to JSON" e))
    ∧ (∀ jsonData e, toJSON L data format = .ok jsonData →
        detectDocumentType L order jsonData = .error e →
        ValidateBytes L v order data format sourcePath
          = .error (.wrap "failed to detect document type" e))
    ∧ (∀ jsonData docType, toJSON L data format = .ok jsonData →
        detectDocumentType L order jsonData = .ok docType →
        v.schemas docType = none →
        ValidateBytes L v order data format sourcePath
          = .error (.msg ("no schema available for document type: "
              ++ L.typeString docType))) := by
  refine ⟨?_, ?_, ?_, ?_⟩
  · intro jsonData docType schema h1 h2 h3
    obtain ⟨doc, h4⟩ := detectDocumentType_ok_parses L order jsonData docType h2
    cases h5 : schema.Validate doc with
    | none =>
      refine ⟨_, doc, ValidateBytes_valid L v order data format sourcePath jsonData docType
        schema doc h1 h2 h3 h4 h5, h4, rfl, rfl, rfl, fun _ => ⟨rfl, rfl⟩, ?_⟩
      intro err herr
      rw [h5] at herr
      cases herr
    | some err0 =>
      refine ⟨_, doc, ValidateBytes_invalid L v order data format sourcePath jsonData docType
        schema doc err0 h1 h2 h3 h4 h5, h4, rfl, rfl, rfl, ?_, ?_⟩
      · intro hnone
        rw [h5] at hnone
        cases hnone
      · intro err herr
        rw [h5] at herr
        cases herr
        exact ⟨rfl, rfl, extractErrors_ne_nil err0⟩
  · intro e h1
    exact ValidateBytes_toJSON_error L v order data format sourcePath e h1
  · intro jsonData e h1 h2
    exact ValidateBytes_detect_error L v order data format sourcePath jsonData e h1 h2
  · intro jsonData docType h1 h2 h3
    exact ValidateBytes_lookup_error L v order data format sourcePath jsonData docType h1 h2 h3

/-- C8 at the catalog document of scenario 1 (a Result with the label, the type and the
version, although the schema reports violations) and at the unknown-root document of
scenario 2 (a detection error and no Result). -/
theorem C8_ValidateBytes_result_or_hard_error_witness :
    (∃ r, ValidateBytes demoLib demoValidator typeMap "\x7b\"catalog\": \x7b\x7d\x7d"
          Format.JSON "catalog.json" = .ok r
        ∧ r.FilePath = "catalog.json" ∧ r.DocumentType = "catalog"
        ∧ r.SchemaVersion = "1.1.3")
    ∧ ValidateBytes demoLib demoValidator typeMap "\x7b\"unknown-root\": \x7b\x7d\x7d"
          Format.JSON "other.json"
        = .error (.wrap "failed to detect document type"
            (.msg "could not determine document type from content")) := by
  constructor
  · obtain ⟨r, doc, h1, _, h3, h4, h5, _⟩ :=
      (C8_ValidateBytes_result_or_hard_error demoLib demoValidator typeMap
        "\x7b\"catalog\": \x7b\x7d\x7d" Format.JSON "catalog.json").1
        "\x7b\"catalog\": \x7b\x7d\x7d" DocumentType.Catalog demoSchema rfl rfl rfl
    exact ⟨r, h1, h3, h4, h5⟩
  · exact (C8_ValidateBytes_result_or_hard_error demoLib demoValidator typeMap
      "\x7b\"unknown-root\": \x7b\x7d\x7d" Format.JSON "other.json").2.2.1
      "\x7b\"unknown-root\": \x7b\x7d\x7d" _ rfl rfl

/-- C9 as stated fails.  For the JSON format toJSON returns the bytes as they are without
parsing them, so the empty input, which the JSON decoder rejects, passes the
normalisation stage and is rejected by document-type detection.  For the YAML format the
empty input is decoded to nil without an error, toJSON returns the text null, and that
document too is rejected only by document-type detection. -/
theorem C9_counterexample_toJSON_accepts_empty_input :
    (¬ (∀ (δ : Type) (L : Lib δ) (data : String),
          (∃ e, L.jsonUnmarshal data = .error e) → ∃ e, toJSON L data Format.JSON = .error e))
    ∧ demoLib.jsonUnmarshal "" = .error (.msg "unexpected end of JSON input")
    ∧ toJSON demoLib "" Format.JSON = .ok ""
    ∧ ValidateBytes demoLib demoValidator typeMap "" Format.JSON "empty.json"
        = .error (.wrap "failed to detect document type"
            (.wrap "failed to parse JSON" (.msg "unexpected end of JSON input")))
    ∧ toJSON demoLib "" Format.YAML = .ok "null"
    ∧ ValidateBytes demoLib demoValidator typeMap "" Format.YAML "empty.yaml"
        = .error (.wrap "failed to detect document type"
            (.msg "could not determine document type from content")) := by
  refine ⟨?_, rfl, rfl, rfl, rfl, rfl⟩
  intro h
  obtain ⟨e, he⟩ := h Unit demoLib "" ⟨_, rfl⟩
  cases he

theorem detectDocumentType_null {δ : Type} (L : Lib δ)
    (order : List (String × DocumentType)) (jsonData : String)
    (hnull : L.jsonUnmarshal jsonData = .ok (.scalar .null)) :
    detectDocumentType L order jsonData
      = .error (.msg "could not determine document type from content") := by
  have hnone : rangeTypeMap [] order = none :=
    (rangeTypeMap_none_iff [] order).mpr (fun p _ => hasKey_nil p.1)
  simp only [detectDocumentType, unmarshalMap, hnull, hnone]

/-- C9, amended: in every supported format, malformed or empty input never yields a
Result, ValidateBytes returns an error; but the failing stage is normalisation ("failed to
convert to JSON") only for YAML and XML input that the decoder rejects.  JSON input is
returned by toJSON unparsed, so JSON the decoder rejects, the empty input included, fails
in detection ("failed to detect document type" around "failed to parse JSON"); and empty
YAML input, which yaml.Unmarshal decodes to nil and json.Marshal encodes as null, passes
toJSON as the text null and fails in detection ("could not determine document type from
content"). -/
theorem C9_malformed_or_empty_input_is_a_hard_error {δ : Type} (L : Lib δ) (v : Validator)
    (order : List (String × DocumentType)) (data : String) (sourcePath : String) :
    toJSON L data Format.JSON = .ok data
    ∧ (∀ e, L.jsonUnmarshal data = .error e →
        ValidateBytes L v order data Format.JSON sourcePath
          = .error (.wrap "failed to detect document type" (.wrap "failed to parse JSON" e)))
    ∧ (∀ e, L.yamlUnmarshal data = .error e →
        ValidateBytes L v order data Format.YAML sourcePath
          = .error (.wrap "failed to convert to JSON" (.wrap "failed to parse YAML" e)))
    ∧ (L.yamlUnmarshal "" = .ok (.scalar .null) →
        L.jsonMarshal (.scalar .null) = .ok "null" →
        L.jsonUnmarshal "null" = .ok (.scalar .null) →
        toJSON L "" Format.YAML = .ok "null"
        ∧ ValidateBytes L v order "" Format.YAML sourcePath
            = .error (.wrap "failed to detect document type"
                (.msg "could not determine document type from content")))
    ∧ (∀ e, L.LoadFromBytes data Format.XML = .error e →
        ValidateBytes L v order data Format.XML sourcePath
          = .error (.wrap "failed to convert to JSON" (.wrap "failed to load XML" e))) := by
  refine ⟨rfl, ?_, ?_, ?_, ?_⟩
  · intro e he
    have hd : detectDocumentType L order data = .error (.wrap "failed to parse JSON" e) := by
      simp only [detectDocumentType, unmarshalMap, he]
    exact ValidateBytes_detect_error L v order data Format.JSON sourcePath data _ rfl hd
  · intro e he
    have h1 : toJSON L data Format.YAML = .error (.wrap "failed to parse YAML" e) := by
      simp only [toJSON, he]
    exact ValidateBytes_toJSON_error L v order data Format.YAML sourcePath _ h1
  · intro hyaml hmarshal hnull
    have h1 : toJSON L "" Format.YAML = .ok "null" := by
      simp only [toJSON, hyaml, convertYAMLToJSON, hmarshal]
    exact ⟨h1, ValidateBytes_detect_error L v order "" Format.YAML sourcePath "null" _ h1
      (detectDocumentType_null L order "null" hnull)⟩
  · intro e he
    have h1 : toJSON L data Format.XML = .error (.wrap "failed to load XML" e) := by
      simp only [toJSON, he]
    exact ValidateBytes_toJSON_error L v order data Format.XML sourcePath _ h1

/-- C9, amended, at a malformed YAML input, a malformed XML input, the empty JSON input
and the empty YAML input of the demonstration libraries. -/
theorem C9_malformed_or_empty_input_is_a_hard_error_witness :
    ValidateBytes demoLib demoValidator typeMap "a: [" Format.YAML "bad.yaml"
        = .error (.wrap "failed to convert to JSON" (.wrap "failed to parse YAML"
            (.msg "yaml: did not find expected node content")))
    ∧ ValidateBytes demoLib demoValidator typeMap "<catalog" Format.XML "bad.xml"
        = .error (.wrap "failed to convert to JSON" (.wrap "failed to load XML" (.msg "EOF")))
    ∧ ValidateBytes demoLib demoValidator typeMap "" Format.JSON "empty.json"
        = .error (.wrap "failed to detect document type"
            (.wrap "failed to parse JSON" (.msg "unexpected end of JSON input")))
    ∧ ValidateBytes demoLib demoValidator typeMap "" Format.YAML "empty.yaml"
        = .error (.wrap "failed to detect document type"
            (.msg "could not determine document type from content")) :=
  ⟨(C9_malformed_or_empty_input_is_a_hard_error demoLib demoValidator typeMap "a: ["
      "bad.yaml").2.2.1 _ rfl,
   (C9_malformed_or_empty_input_is_a_hard_error demoLib demoValidator typeMap "<catalog"
      "bad.xml").2.2.2.2 _ rfl,
   (C9_malformed_or_empty_input_is_a_hard_error demoLib demoValidator typeMap ""
      "empty.json").2.1 _ rfl,
   ((C9_malformed_or_empty_input_is_a_hard_error demoLib demoValidator typeMap ""
      "empty.yaml").2.2.2.1 rfl rfl rfl).2⟩

/-! ## The order of the detection loop -/

theorem rangeTypeMap_order_irrelevant (wrapper : List (String × Value))
    (o₁ o₂ : List (String × DocumentType)) (h₁ : o₁.Perm typeMap) (h₂ : o₂.Perm typeMap)
    (hone : ∀ k₁ ∈ knownKeys, ∀ k₂ ∈ knownKeys,
      hasKey wrapper k₁ = true → hasKey wrapper k₂ = true → k₁ = k₂) :
    rangeTypeMap wrapper o₁ = rangeTypeMap wrapper o₂ := by
  cases hres : rangeTypeMap wrapper o₁ with
  | none =>
    have hall := (rangeTypeMap_none_iff wrapper o₁).mp hres
    exact ((rangeTypeMap_none_iff wrapper o₂).mpr (fun p hp =>
      hall p (h₁.mem_iff.mpr (h₂.mem_iff.mp hp)))).symm
  | some t =>
    obtain ⟨key, hk, hk2⟩ := rangeTypeMap_some wrapper o₁ t hres
    have hk3 : (key, t) ∈ typeMap := h₁.mem_iff.mp hk
    exact (rangeTypeMap_unique wrapper o₂ h₂ key t hk3 hk2 (fun k hkm hkp =>
      hone k hkm key (mem_knownKeys_of_mem_typeMap key t hk3) hkp hk2)).symm

/-- C6 as stated fails: on a root map holding the two known keys catalog and profile, a
run whose loop visits catalog first and a run whose loop visits profile first return
Results with different document types. -/
theorem C6_counterexample_two_known_keys :
    ¬ (∀ (δ : Type) (L : Lib δ) (v : Validator) (o₁ o₂ : List (String × DocumentType)),
        o₁.Perm typeMap → o₂.Perm typeMap →
        ∀ (data : String) (format : Format) (sourcePath : String),
          ValidateBytes L v o₁ data format sourcePath
            = ValidateBytes L v o₂ data format sourcePath) := by
  intro h
  have h1 := h Unit demoLib demoValidator typeMap typeMap.reverse (List.Perm.refl _)
    (List.reverse_perm _) "\x7b\"catalog\": \x7b\x7d, \"profile\": \x7b\x7d\x7d" Format.JSON
    "doc.json"
  have e1 : ValidateBytes demoLib demoValidator typeMap
      "\x7b\"catalog\": \x7b\x7d, \"profile\": \x7b\x7d\x7d" Format.JSON "doc.json"
      = .ok (demoResult "catalog" "doc.json") := rfl
  have e2 : ValidateBytes demoLib demoValidator typeMap.reverse
      "\x7b\"catalog\": \x7b\x7d, \"profile\": \x7b\x7d\x7d" Format.JSON "doc.json"
      = .ok (demoResult "profile" "doc.json") := rfl
  rw [e1, e2] at h1
  have h2 : demoResult "catalog" "doc.json" = demoResult "profile" "doc.json" :=
    Except.ok.inj h1
  revert h2
  decide

theorem ValidateBytes_ok_fields {δ : Type} (L : Lib δ) (v : Validator)
    (order : List (String × DocumentType)) (data : String) (format : Format)
    (sourcePath : String) (jsonData : String) (docType : DocumentType)
    (schema : jsonschema.Schema) (doc : Value)
    (h1 : toJSON L data format = .ok jsonData)
    (h2 : detectDocumentType L order jsonData = .ok docType)
    (h3 : v.schemas docType = some schema)
    (h4 : L.jsonUnmarshal jsonData = .ok doc) :
    ∃ r, ValidateBytes L v order data format sourcePath = .ok r
      ∧ r.FilePath = sourcePath ∧ r.DocumentType = L.typeString docType
      ∧ r.SchemaVersion = SchemaVersion := by
  cases h5 : schema.Validate doc with
  | none =>
    exact ⟨_, ValidateBytes_valid L v order data format sourcePath jsonData docType schema doc
      h1 h2 h3 h4 h5, rfl, rfl, rfl⟩
  | some err =>
    exact ⟨_, ValidateBytes_invalid L v order data format sourcePath jsonData docType schema
      doc err h1 h2 h3 h4 h5, rfl, rfl, rfl⟩

/-- C6, amended: take two runs of ValidateBytes on the same Validator, bytes, format and
source label, each ranging over the table in an order of its own, the second with its own
order of ranging over decoded YAML maps (yamlUnmarshal₂) and its own behaviour of the
engine (validate₂).  Whenever both runs normalise the input to the same JSON bytes (always
so for JSON input, which toJSON returns unchanged) and the root map of the normalised
document holds at most one of the known type keys, both runs fail with the same error or
both return a Result, and the two Results have the same source label, document type and
schema version.  When, in addition, the engine returns the same value in both runs (nil,
or the same tree with the Causes in the same order, or the same other error), the two
outcomes are identical. -/
theorem C6_two_runs_agree_with_one_known_key {δ : Type} (L : Lib δ) (v : Validator)
    (o₁ o₂ : List (String × DocumentType))
    (h₁ : o₁.Perm typeMap) (h₂ : o₂.Perm typeMap)
    (yamlUnmarshal₂ : String → Except GoError Value)
    (validate₂ : DocumentType → Value → Option EngineError)
    (data : String) (format : Format) (sourcePath : String)
    (hnorm : toJSON (secondRunLib L yamlUnmarshal₂) data format = toJSON L data format)
    (hone : ∀ jsonData wrapper, toJSON L data format = .ok jsonData →
      unmarshalMap L jsonData = .ok wrapper →
      ∀ k₁ ∈ knownKeys, ∀ k₂ ∈ knownKeys,
        hasKey wrapper k₁ = true → hasKey wrapper k₂ = true → k₁ = k₂) :
    (∀ e, ValidateBytes L v o₁ data format sourcePath = .error e
        ↔ ValidateBytes (secondRunLib L yamlUnmarshal₂) (secondRunValidator v validate₂) o₂
            data format sourcePath = .error e)
    ∧ (∀ r₁ r₂, ValidateBytes L v o₁ data format sourcePath = .ok r₁ →
        ValidateBytes (secondRunLib L yamlUnmarshal₂) (secondRunValidator v validate₂) o₂
          data format sourcePath = .ok r₂ →
        r₁.FilePath = r₂.FilePath ∧ r₁.DocumentType = r₂.DocumentType
        ∧ r₁.SchemaVersion = r₂.SchemaVersion)
    ∧ ((∀ jsonData doc docType schema, toJSON L data format = .ok jsonData →
          L.jsonUnmarshal jsonData = .ok doc → v.schemas docType = some schema →
          validate₂ docType doc = schema.Validate doc) →
        ValidateBytes L v o₁ data format sourcePath
          = ValidateBytes (secondRunLib L yamlUnmarshal₂) (secondRunValidator v validate₂) o₂
              data format sourcePath) := by
  cases h1 : toJSON L data format with
  | error e0 =>
    have r1 := ValidateBytes_toJSON_error L v o₁ data format sourcePath e0 h1
    have r2 := ValidateBytes_toJSON_error (secondRunLib L yamlUnmarshal₂)
      (secondRunValidator v validate₂) o₂ data format sourcePath e0 (hnorm.trans h1)
    rw [r1, r2]
    refine ⟨fun e => Iff.rfl, ?_, fun _ => rfl⟩
    intro r₁ r₂ hr
    cases hr
  | ok jsonData =>
    have h1b : toJSON (secondRunLib L yamlUnmarshal₂) data format = .ok jsonData :=
      hnorm.trans h1
    have hdet : detectDocumentType (secondRunLib L yamlUnmarshal₂) o₂ jsonData
        = detectDocumentType L o₁ jsonData := by
      have hsame : detectDocumentType (secondRunLib L yamlUnmarshal₂) o₂ jsonData
          = detectDocumentType L o₂ jsonData := rfl
      rw [hsame]
      cases hu : unmarshalMap L jsonData with
      | error e => simp only [detectDocumentType, hu]
      | ok wrapper =>
        simp only [detectDocumentType, hu]
        rw [rangeTypeMap_order_irrelevant wrapper o₂ o₁ h₂ h₁ (hone jsonData wrapper h1 hu)]
    cases h2 : detectDocumentType L o₁ jsonData with
    | error e0 =>
      have r1 := ValidateBytes_detect_error L v o₁ data format sourcePath jsonData e0 h1 h2
      have r2 := ValidateBytes_detect_error (secondRunLib L yamlUnmarshal₂)
        (secondRunValidator v validate₂) o₂ data format sourcePath jsonData e0 h1b
        (hdet.trans h2)
      rw [r1, r2]
      refine ⟨fun e => Iff.rfl, ?_, fun _ => rfl⟩
      intro r₁ r₂ hr
      cases hr
    | ok docType =>
      have h2b : detectDocumentType (secondRunLib L yamlUnmarshal₂) o₂ jsonData
          = .ok docType := hdet.trans h2
      cases h3 : v.schemas docType with
      | none =>
        have h3b : (secondRunValidator v validate₂).schemas docType = none := by
          simp only [secondRunValidator, h3, Option.map_none']
        have r1 := ValidateBytes_lookup_error L v o₁ data format sourcePath jsonData docType
          h1 h2 h3
        have r2 := ValidateBytes_lookup_error (secondRunLib L yamlUnmarshal₂)
          (secondRunValidator v validate₂) o₂ data format sourcePath jsonData docType
          h1b h2b h3b
        rw [r1, r2]
        refine ⟨fun e => Iff.rfl, ?_, fun _ => rfl⟩
        intro r₁ r₂ hr
        cases hr
      | some schema =>
        obtain ⟨doc, h4⟩ := detectDocumentType_ok_parses L o₁ jsonData docType h2
        have h4b : (secondRunLib L yamlUnmarshal₂).jsonUnmarshal jsonData = .ok doc := h4
        have h3b : (secondRunValidator v validate₂).schemas docType
            = some { Validate := validate₂ docType } := by
          simp only [secondRunValidator, h3, Option.map_some']
        obtain ⟨ra, hra, fa1, fa2, fa3⟩ := ValidateBytes_ok_fields L v o₁ data format
          sourcePath jsonData docType schema doc h1 h2 h3 h4
        obtain ⟨rb, hrb, fb1, fb2, fb3⟩ := ValidateBytes_ok_fields
          (secondRunLib L yamlUnmarshal₂) (secondRunValidator v validate₂) o₂ data format
          sourcePath jsonData docType _ doc h1b h2b h3b h4b
        refine ⟨?_, ?_, ?_⟩
        · intro e
          rw [hra, hrb]
          constructor <;> intro h <;> cases h
        · intro r₁ r₂ e1 e2
          rw [hra] at e1
          rw [hrb] at e2
          cases e1
          cases e2
          exact ⟨fa1.trans fb1.symm, fa2.trans fb2.symm, fa3.trans fb3.symm⟩
        · intro hengine
          have hv : validate₂ docType doc = schema.Validate doc :=
            hengine jsonData doc docType schema rfl h4 h3
          cases h5 : schema.Validate doc with
          | none =>
            rw [ValidateBytes_valid L v o₁ data format sourcePath jsonData docType schema doc
              h1 h2 h3 h4 h5,
              ValidateBytes_valid (secondRunLib L yamlUnmarshal₂)
                (secondRunValidator v validate₂) o₂ data format sourcePath jsonData docType
                _ doc h1b h2b h3b h4b (hv.trans h5)]
            rfl
          | some err =>
            rw [ValidateBytes_invalid L v o₁ data format sourcePath jsonData docType schema
              doc err h1 h2 h3 h4 h5,
              ValidateBytes_invalid (secondRunLib L yamlUnmarshal₂)
                (secondRunValidator v validate₂) o₂ data format sourcePath jsonData docType
                _ doc err h1b h2b h3b h4b (hv.trans h5)]
            rfl

/-- C6, amended, at the catalog document with the second run ranging over the table
backwards: with the engine reporting the same tree the two outcomes are identical; with
the engine reporting its two causes in the other order the second Result lists the errors
in the other order and still has the same label, document type and schema version. -/
theorem C6_two_runs_agree_with_one_known_key_witness :
    ValidateBytes demoLib demoValidator typeMap "\x7b\"catalog\": \x7b\x7d\x7d" Format.JSON
        "catalog.json"
      = ValidateBytes (secondRunLib demoLib demoLib.yamlUnmarshal)
          (secondRunValidator demoValidator (fun _ => demoSchema.Validate)) typeMap.reverse
          "\x7b\"catalog\": \x7b\x7d\x7d" Format.JSON "catalog.json"
    ∧ ValidateBytes (secondRunLib demoLib demoLib.yamlUnmarshal)
          (secondRunValidator demoValidator demoValidateSwapped) typeMap.reverse
          "\x7b\"catalog\": \x7b\x7d\x7d" Format.JSON "catalog.json"
        = .ok { Valid := false, Errors := demoErrors.reverse, DocumentType := "catalog",
                FilePath := "catalog.json", SchemaVersion := "1.1.3" }
    ∧ (demoResult "catalog" "catalog.json").DocumentType
        = (ValidationResult.mk false demoErrors.reverse "catalog" "catalog.json"
            "1.1.3").DocumentType := by
  have hone : ∀ jsonData wrapper,
      toJSON demoLib "\x7b\"catalog\": \x7b\x7d\x7d" Format.JSON = .ok jsonData →
      unmarshalMap demoLib jsonData = .ok wrapper →
      ∀ k₁ ∈ knownKeys, ∀ k₂ ∈ knownKeys,
        hasKey wrapper k₁ = true → hasKey wrapper k₂ = true → k₁ = k₂ := by
    intro jsonData wrapper hj hw
    have hj2 : jsonData = "\x7b\"catalog\": \x7b\x7d\x7d" := (Except.ok.inj hj).symm
    subst hj2
    have hw2 : wrapper = [("catalog", Value.strMap [])] := (Except.ok.inj hw).symm
    subst hw2
    decide
  refine ⟨?_, rfl, ?_⟩
  · refine (C6_two_runs_agree_with_one_known_key demoLib demoValidator typeMap
      typeMap.reverse (List.Perm.refl _) (List.reverse_perm _) demoLib.yamlUnmarshal
      (fun _ => demoSchema.Validate) "\x7b\"catalog\": \x7b\x7d\x7d" Format.JSON
      "catalog.json" rfl hone).2.2 ?_
    intro jsonData doc docType schema _ _ hs
    have hs2 : schema = demoSchema := (Option.some.inj hs).symm
    subst hs2
    rfl
  · exact ((C6_two_runs_agree_with_one_known_key demoLib demoValidator typeMap
      typeMap.reverse (List.Perm.refl _) (List.reverse_perm _) demoLib.yamlUnmarshal
      demoValidateSwapped "\x7b\"catalog\": \x7b\x7d\x7d" Format.JSON
      "catalog.json" rfl hone).2.1 _ _ rfl rfl).2.1

/-! ## convertYAMLToJSON -/

theorem mapSet_keys {ν : Type} (m : List (String × ν)) (k : String) (v : ν) (key : String) :
    key ∈ (mapSet m k v).map Prod.fst ↔ key = k ∨ key ∈ m.map Prod.fst := by
  induction m with
  | nil => simp [mapSet]
  | cons p rest ih =>
    obtain ⟨k0, v0⟩ := p
    simp only [mapSet]
    by_cases hk : k0 = k
    · subst hk
      simp
    · rw [if_neg hk]
      simp only [List.map_cons, List.mem_cons, ih]
      tauto

theorem mapSet_mem {ν : Type} (m : List (String × ν)) (k : String) (v : ν)
    (p : String × ν) (h : p ∈ mapSet m k v) : p = (k, v) ∨ p ∈ m := by
  induction m with
  | nil =>
    simp only [mapSet, List.mem_singleton] at h
    exact Or.inl h
  | cons q rest ih =>
    obtain ⟨k0, v0⟩ := q
    simp only [mapSet] at h
    by_cases hk : k0 = k
    · rw [if_pos hk, List.mem_cons] at h
      rcases h with h | h
      · exact Or.inl h
      · exact Or.inr (List.mem_cons_of_mem _ h)
    · rw [if_neg hk, List.mem_cons] at h
      rcases h with h | h
      · exact Or.inr (h ▸ List.mem_cons_self _ _)
      · rcases ih h with h2 | h2
        · exact Or.inl h2
        · exact Or.inr (List.mem_cons_of_mem _ h2)

theorem mapSet_nodup {ν : Type} (m : List (String × ν)) (k : String) (v : ν)
    (h : (m.map Prod.fst).Nodup) : ((mapSet m k v).map Prod.fst).Nodup := by
  induction m with
  | nil => simp [mapSet]
  | cons p rest ih =>
    obtain ⟨k0, v0⟩ := p
    simp only [List.map_cons, List.nodup_cons] at h
    simp only [mapSet]
    by_cases hk : k0 = k
    · subst hk
      rw [if_pos rfl]
      simp only [List.map_cons, List.nodup_cons]
      exact h
    · rw [if_neg hk]
      simp only [List.map_cons, List.nodup_cons, mapSet_keys]
      refine ⟨?_, ih h.2⟩
      rintro (h1 | h1)
      · exact hk h1
      · exact h.1 h1

theorem stringKeyedEntries_mapSet (m : List (String × Value)) (k : String) (v : Value)
    (hm : stringKeyedEntries m = true) (hv : stringKeyed v = true) :
    stringKeyedEntries (mapSet m k v) = true := by
  induction m with
  | nil => simp [mapSet, stringKeyedEntries, hv]
  | cons p rest ih =>
    obtain ⟨k0, v0⟩ := p
    simp only [stringKeyedEntries, Bool.and_eq_true] at hm
    simp only [mapSet]
    by_cases hk : k0 = k
    · rw [if_pos hk]
      simp only [stringKeyedEntries, Bool.and_eq_true]
      exact ⟨hv, hm.2⟩
    · rw [if_neg hk]
      simp only [stringKeyedEntries, Bool.and_eq_true]
      exact ⟨hm.1, ih hm.2⟩

mutual
theorem stringKeyed_convertYAMLToJSON (sprintV : Scalar → String) :
    ∀ v : Value, stringKeyed (convertYAMLToJSON sprintV v) = true
  | .scalar s => by simp [convertYAMLToJSON, stringKeyed]
  | .list items => by
    simp only [convertYAMLToJSON, stringKeyed]
    exact stringKeyed_convertItems sprintV items
  | .strMap entries => by
    simp only [convertYAMLToJSON, stringKeyed]
    exact stringKeyed_convertStrEntries sprintV entries [] rfl
  | .anyMap entries => by
    simp only [convertYAMLToJSON, stringKeyed]
    exact stringKeyed_convertAnyEntries sprintV entries [] rfl
theorem stringKeyed_convertItems (sprintV : Scalar → String) :
    ∀ items : List Value, stringKeyedItems (convertItems sprintV items) = true
  | [] => by simp [convertItems, stringKeyedItems]
  | v :: rest => by
    simp only [convertItems, stringKeyedItems, Bool.and_eq_true]
    exact ⟨stringKeyed_convertYAMLToJSON sprintV v, stringKeyed_convertItems sprintV rest⟩
theorem stringKeyed_convertStrEntries (sprintV : Scalar → String) :
    ∀ (entries : List (String × Value)) (result : List (String × Value)),
      stringKeyedEntries result = true →
      stringKeyedEntries (convertStrEntries sprintV entries result) = true
  | [], result, h => by
    simp only [convertStrEntries]
    exact h
  | (k, v) :: rest, result, h => by
    simp only [convertStrEntries]
    exact stringKeyed_convertStrEntries sprintV rest _
      (stringKeyedEntries_mapSet result k _ h (stringKeyed_convertYAMLToJSON sprintV v))
theorem stringKeyed_convertAnyEntries (sprintV : Scalar → String) :
    ∀ (entries : List (Scalar × Value)) (result : List (String × Value)),
      stringKeyedEntries result = true →
      stringKeyedEntries (convertAnyEntries sprintV entries result) = true
  | [], result, h => by
    simp only [convertAnyEntries]
    exact h
  | (k, v) :: rest, result, h => by
    simp only [convertAnyEntries]
    exact stringKeyed_convertAnyEntries sprintV rest _
      (stringKeyedEntries_mapSet result (sprintV k) _ h
        (stringKeyed_convertYAMLToJSON sprintV v))
end

theorem convertItems_eq_map (sprintV : Scalar → String) (items : List Value) :
    convertItems sprintV items = items.map (convertYAMLToJSON sprintV) := by
  induction items with
  | nil => simp [convertItems]
  | cons v rest ih => simp [convertItems, ih]

theorem convertStrEntries_keys (sprintV : Scalar → String) (entries : List (String × Value))
    (result : List (String × Value)) (key : String) :
    key ∈ (convertStrEntries sprintV entries result).map Prod.fst
      ↔ key ∈ result.map Prod.fst ∨ key ∈ entries.map Prod.fst := by
  induction entries generalizing result with
  | nil => simp [convertStrEntries]
  | cons p rest ih =>
    obtain ⟨k, v⟩ := p
    simp only [convertStrEntries, ih, mapSet_keys, List.map_cons, List.mem_cons]
    tauto

theorem convertAnyEntries_keys (sprintV : Scalar → String) (entries : List (Scalar × Value))
    (result : List (String × Value)) (key : String) :
    key ∈ (convertAnyEntries sprintV entries result).map Prod.fst
      ↔ key ∈ result.map Prod.fst ∨ ∃ k ∈ entries.map Prod.fst, sprintV k = key := by
  induction entries generalizing result with
  | nil => simp [convertAnyEntries]
  | cons p rest ih =>
    obtain ⟨k, v⟩ := p
    simp only [convertAnyEntries, ih, mapSet_keys, List.map_cons, List.mem_cons,
      exists_eq_or_imp]
    constructor
    · rintro ((h | h) | h)
      · exact Or.inr (Or.inl h.symm)
      · exact Or.inl h
      · exact Or.inr (Or.inr h)
    · rintro (h | h | h)
      · exact Or.inl (Or.inr h)
      · exact Or.inl (Or.inl h.symm)
      · exact Or.inr h

theorem convertStrEntries_nodup (sprintV : Scalar → String) (entries : List (String × Value))
    (result : List (String × Value)) (h : (result.map Prod.fst).Nodup) :
    ((convertStrEntries sprintV entries result).map Prod.fst).Nodup := by
  induction entries generalizing result with
  | nil => simpa [convertStrEntries] using h
  | cons p rest ih =>
    obtain ⟨k, v⟩ := p
    simp only [convertStrEntries]
    exact ih _ (mapSet_nodup result k _ h)

theorem convertAnyEntries_nodup (sprintV : Scalar → String) (entries : List (Scalar × Value))
    (result : List (String × Value)) (h : (result.map Prod.fst).Nodup) :
    ((convertAnyEntries sprintV entries result).map Prod.fst).Nodup := by
  induction entries generalizing result with
  | nil => simpa [convertAnyEntries] using h
  | cons p rest ih =>
    obtain ⟨k, v⟩ := p
    simp only [convertAnyEntries]
    exact ih _ (mapSet_nodup result (sprintV k) _ h)

theorem convertStrEntries_values (sprintV : Scalar → String)
    (entries : List (String × Value)) (result : List (String × Value))
    (key : String) (w : Value)
    (h : (key, w) ∈ convertStrEntries sprintV entries result) :
    (key, w) ∈ result ∨ ∃ v0, (key, v0) ∈ entries ∧ w = convertYAMLToJSON sprintV v0 := by
  induction entries generalizing result with
  | nil =>
    simp only [convertStrEntries] at h
    exact Or.inl h
  | cons p rest ih =>
    obtain ⟨k, v⟩ := p
    simp only [convertStrEntries] at h
    rcases ih _ h with h1 | ⟨v0, h1, h2⟩
    · rcases mapSet_mem result k _ _ h1 with h3 | h3
      · cases h3
        exact Or.inr ⟨v, List.mem_cons_self _ _, rfl⟩
      · exact Or.inl h3
    · exact Or.inr ⟨v0, List.mem_cons_of_mem _ h1, h2⟩

theorem convertAnyEntries_values (sprintV : Scalar → String)
    (entries : List (Scalar × Value)) (result : List (String × Value))
    (key : String) (w : Value)
    (h : (key, w) ∈ convertAnyEntries sprintV entries result) :
    (key, w) ∈ result
      ∨ ∃ k v0, (k, v0) ∈ entries ∧ sprintV k = key ∧ w = convertYAMLToJSON sprintV v0 := by
  induction entries generalizing result with
  | nil =>
    simp only [convertAnyEntries] at h
    exact Or.inl h
  | cons p rest ih =>
    obtain ⟨k, v⟩ := p
    simp only [convertAnyEntries] at h
    rcases ih _ h with h1 | ⟨k1, v0, h1, h2, h3⟩
    · rcases mapSet_mem result (sprintV k) _ _ h1 with h4 | h4
      · cases h4
        exact Or.inr ⟨k, v, List.mem_cons_self _ _, rfl, rfl⟩
      · exact Or.inl h4
    · exact Or.inr ⟨k1, v0, List.mem_cons_of_mem _ h1, h2, h3⟩

/-- C10: for every decoded YAML tree of scalars, lists, string-keyed maps and
arbitrary-keyed maps, the tree convertYAMLToJSON returns has only string-keyed maps at
every depth; the keys of a converted arbitrary-keyed map are the string renderings of its
keys and each value is the conversion of a value stored under such a key; a string-keyed
map keeps its keys; a list keeps its length and the order of its elements; a scalar is
returned unchanged. -/
theorem C10_convertYAMLToJSON_string_keyed (sprintV : Scalar → String) (v : Value) :
    stringKeyed (convertYAMLToJSON sprintV v) = true
    ∧ (∀ s, convertYAMLToJSON sprintV (.scalar s) = .scalar s)
    ∧ (∀ items, convertYAMLToJSON sprintV (.list items)
          = .list (items.map (convertYAMLToJSON sprintV))
        ∧ (items.map (convertYAMLToJSON sprintV)).length = items.length)
    ∧ (∀ entries, ∃ result, convertYAMLToJSON sprintV (.anyMap entries) = .strMap result
        ∧ (∀ key, key ∈ result.map Prod.fst ↔ ∃ k ∈ entries.map Prod.fst, sprintV k = key)
        ∧ (∀ key w, (key, w) ∈ result →
            ∃ k v0, (k, v0) ∈ entries ∧ sprintV k = key ∧ w = convertYAMLToJSON sprintV v0)
        ∧ (result.map Prod.fst).Nodup)
    ∧ (∀ entries, ∃ result, convertYAMLToJSON sprintV (.strMap entries) = .strMap result
        ∧ (∀ key, key ∈ result.map Prod.fst ↔ key ∈ entries.map Prod.fst)
        ∧ (∀ key w, (key, w) ∈ result →
            ∃ v0, (key, v0) ∈ entries ∧ w = convertYAMLToJSON sprintV v0)
        ∧ (result.map Prod.fst).Nodup) := by
  refine ⟨stringKeyed_convertYAMLToJSON sprintV v, ?_, ?_, ?_, ?_⟩
  · intro s
    simp only [convertYAMLToJSON]
  · intro items
    refine ⟨?_, List.length_map _ _⟩
    simp only [convertYAMLToJSON, convertItems_eq_map]
  · intro entries
    refine ⟨convertAnyEntries sprintV entries [], ?_, ?_, ?_, ?_⟩
    · simp only [convertYAMLToJSON]
    · intro key
      rw [convertAnyEntries_keys]
      simp
    · intro key w h
      rcases convertAnyEntries_values sprintV entries [] key w h with h1 | h1
      · cases h1
      · exact h1
    · exact convertAnyEntries_nodup sprintV entries [] (by simp)
  · intro entries
    refine ⟨convertStrEntries sprintV entries [], ?_, ?_, ?_, ?_⟩
    · simp only [convertYAMLToJSON]
    · intro key
      rw [convertStrEntries_keys]
      simp
    · intro key w h
      rcases convertStrEntries_values sprintV entries [] key w h with h1 | h1
      · cases h1
      · exact h1
    · exact convertStrEntries_nodup sprintV entries [] (by simp)

/-- C10 at a tree with an arbitrary-keyed map at the root, one inside a list and one
inside a string-keyed map: the converted tree, and that all of its maps are
string-keyed. -/
theorem C10_convertYAMLToJSON_string_keyed_witness :
    convertYAMLToJSON (Sprintf_v (fun _ => "NaN")) demoYaml = demoYamlConverted
    ∧ stringKeyed demoYaml = false
    ∧ stringKeyed (convertYAMLToJSON (Sprintf_v (fun _ => "NaN")) demoYaml) = true :=
  ⟨rfl, rfl, (C10_convertYAMLToJSON_string_keyed (Sprintf_v (fun _ => "NaN")) demoYaml).1⟩

end Oscal
